import Mathlib

/-!
A formal model of the CSV ingestion / replace / aggregation backend in
`app.py`, with theorems settling the specification claims.

Python strings are modelled as `List Char`; `str.strip()`, `str.upper()` and
`str.lstrip()` are modelled character-wise on those lists.  The MongoDB
staging collection is modelled as the list of its documents, an upsert with
`$setOnInsert` as insert-if-absent on the full 4-tuple, and the fallible
store/file operations of the background job as boolean success flags in a
`RunEnv` environment.
-/

namespace SearchBackend

/- ### Python string primitives -/

/-- The whitespace characters removed by Python `str.strip()`
(the ASCII whitespace range). -/
def pyIsSpace (c : Char) : Bool :=
  c = ' ' || c = '\t' || c = '\n' || c = '\r' || c = '\x0b' || c = '\x0c'

/-- Removing leading whitespace: the leading half of Python `str.strip()`. -/
def dropLead (l : List Char) : List Char := l.dropWhile pyIsSpace

/-- Removing trailing whitespace: the trailing half of Python `str.strip()`. -/
def dropTrail (l : List Char) : List Char := (l.reverse.dropWhile pyIsSpace).reverse

/-- Python `s.strip()`. -/
def pyStrip (l : List Char) : List Char := dropTrail (dropLead l)

/-- Python `s.upper()`: character-wise basic-latin upper-casing. -/
def pyUpper (l : List Char) : List Char := l.map Char.toUpper

/-- Python `s.lstrip(chars)` for a single character: drop every leading
occurrence of that character. -/
def pyLstripChar (ch : Char) (l : List Char) : List Char :=
  l.dropWhile fun c => decide (c = ch)

/-- Python `x or y` on an optional string: the first operand unless it is
falsy (`None` or the empty string). -/
def pyOrStr (a : Option (List Char)) (b : List Char) : List Char :=
  match a with
  | none => b
  | some s => if s.isEmpty then b else s

/- ### The record model -/

/-- One stored record: the four fields `unique_id`, `날짜` (date), `시간` (time)
and `인증샷 시리얼넘버` (serial) of a document in the collection. -/
structure RecordDoc where
  unique_id : List Char
  date : List Char
  time : List Char
  serial : List Char
deriving DecidableEq, Repr

/-- The document built from one CSV row in `_run_replace_job` (lines 731–736):
every field is `strip`ped, `unique_id` is additionally upper-cased. -/
def normalizeRow (r : RecordDoc) : RecordDoc :=
  { unique_id := pyUpper (pyStrip r.unique_id)
    date := pyStrip r.date
    time := pyStrip r.time
    serial := pyStrip r.serial }

/- ### The staging loader -/

/-- The validity test of line 738: all four normalized fields must be non-empty
(Python truthiness of the stripped strings); otherwise the row is skipped. -/
def validDoc (d : RecordDoc) : Bool :=
  !d.unique_id.isEmpty && !d.date.isEmpty && !d.time.isEmpty && !d.serial.isEmpty

/-- The loader state of `_run_replace_job`: the staging (temporary) collection
contents plus the `processed` / `inserted` / `skipped` counters. -/
structure LoadState where
  staging : List RecordDoc
  processed : Nat
  inserted : Nat
  skipped : Nat
deriving DecidableEq, Repr

/-- Processing of one CSV row (lines 730–757): build the normalized document;
an invalid document counts as `skipped`; a valid one is upserted on its full
4-tuple with `$setOnInsert` and `upsert=True`, so it is inserted exactly when
no record with that 4-tuple is already staged, and `inserted` counts the
upserted ids reported by the bulk writes. -/
def loadRow (st : LoadState) (raw : RecordDoc) : LoadState :=
  let doc := normalizeRow raw
  if !validDoc doc then
    { st with skipped := st.skipped + 1, processed := st.processed + 1 }
  else if doc ∈ st.staging then
    { st with processed := st.processed + 1 }
  else
    { staging := st.staging ++ [doc]
      processed := st.processed + 1
      inserted := st.inserted + 1
      skipped := st.skipped }

/-- The full staging load over the data rows of the file, starting from the
freshly created empty temporary collection and zeroed counters. -/
def runLoad (rows : List RecordDoc) : LoadState :=
  rows.foldl loadRow { staging := [], processed := 0, inserted := 0, skipped := 0 }

/-- The normalized valid documents of the file, in row order, duplicates kept. -/
def validDocs (rows : List RecordDoc) : List RecordDoc :=
  (rows.map normalizeRow).filter validDoc

/- ### Headers, the header check and its error message -/

/-- Header normalization of `_normalize_headers_map` (line 89):
`(f or "").strip().lstrip("﻿")`. -/
def normalizeHeader (f : List Char) : List Char :=
  pyLstripChar '﻿' (pyStrip f)

/-- The required header set of line 85: `unique_id`, `날짜`, `시간`,
`인증샷 시리얼넘버`. -/
def REQUIRED_HEADERS : List (List Char) :=
  ["unique_id".toList, "날짜".toList, "시간".toList, "인증샷 시리얼넘버".toList]

/-- `norm_set = set(fmap.values())` (line 720): the normalized header names,
deduplicated. -/
def normSet (headers : List (List Char)) : List (List Char) :=
  (headers.map normalizeHeader).dedup

/-- The header check of line 721: `REQUIRED_HEADERS.issubset(norm_set)`. -/
def headersOk (headers : List (List Char)) : Bool :=
  REQUIRED_HEADERS.all fun r => decide (r ∈ normSet headers)

/-- Python `repr` of a plain (quote-free) string, as `list.__repr__` prints
its elements. -/
def pyReprStr (s : List Char) : List Char := '\'' :: (s ++ ['\''])

/-- Joining with a separator, as `list.__repr__` renders its elements. -/
def joinSep (sep : List Char) : List (List Char) → List Char
  | [] => []
  | [x] => x
  | x :: y :: xs => x ++ sep ++ joinSep sep (y :: xs)

/-- Python `repr` of a list of strings. -/
def pyReprList (l : List (List Char)) : List Char :=
  '[' :: (joinSep [',', ' '] (l.map pyReprStr) ++ [']'])

/-- The `HeaderMismatch` error text raised at line 722:
`CSV 헤더 불일치: got={list(norm_set)}`. -/
def headerErrMsg (headers : List (List Char)) : List Char :=
  "CSV 헤더 불일치: got=".toList ++ pyReprList (normSet headers)

/-- `n` occurs as a contiguous substring of `h`. -/
def occursIn (n h : List Char) : Bool :=
  (List.range (h.length + 1)).any fun i => ((h.drop i).take n.length) == n

/- ### The background replace job -/

/-- The job phases stored in the `phase` field. -/
inductive Phase
  | parsing
  | loading
  | indexing
  | swapping
  | done
  | error
deriving DecidableEq, Repr

/-- The phase chain of a successful job. -/
def phaseChain : List Phase :=
  [Phase.parsing, Phase.loading, Phase.indexing, Phase.swapping, Phase.done]

/-- The job `status` field values. -/
inductive Status
  | running
  | done
  | error
deriving DecidableEq, Repr

/-- The environment of one background run: which of the fallible store/file
operations succeed.  `loadOk` covers reading and decoding the stream plus the
batched bulk writes during the loading phase (a failure aborts after
`loadFailAfter` rows); `setupOk` covers the collection handles obtained before
the loading phase; the remaining flags are the index builds and the two
renames of the swap phase. -/
structure RunEnv where
  setupOk : Bool
  loadOk : Bool
  loadFailAfter : Nat
  indexOk : Bool
  renameBackupOk : Bool
  renameMainOk : Bool
deriving DecidableEq, Repr

/-- An uploaded CSV file: its header row, and for each data row the raw values
of the four required columns (the `get` helper of line 724 returns `""` for a
column that is absent). -/
structure CsvFile where
  headers : List (List Char)
  rows : List RecordDoc
deriving DecidableEq, Repr

/-- The observable outcome of `_run_replace_job`: the sequence of `phase`
values the job takes over time, the final status / counters / error message,
the staging contents, whether the active→backup rename of the swap succeeded,
and whether the staging→active rename (step 3 of the swap) was attempted. -/
structure RunResult where
  trace : List Phase
  status : Status
  processed : Nat
  inserted : Nat
  skipped : Nat
  errMsg : Option (List Char)
  staging : List RecordDoc
  backupRenamed : Bool
  mainRenameAttempted : Bool
deriving DecidableEq, Repr

/-- `_run_replace_job` (lines 702–790).  The job is created in phase
`parsing`; the worker sets `loading`, validates the headers (raising
`ValueError` with the found header set when a required header is missing,
before any row is read), streams the rows through `loadRow`, sets `indexing`
and builds the indexes, sets `swapping`, attempts the active→backup rename
with every exception swallowed by `except Exception: pass`, renames
staging→active, and marks the job `done`; any exception reaching the outer
handler puts the job in terminal `error` with the exception text.  The
non-header error texts depend on the underlying store exception and are
modelled as opaque markers. -/
def runReplaceJob (file : CsvFile) (env : RunEnv) : RunResult :=
  if !env.setupOk then
    { trace := [Phase.parsing, Phase.error], status := .error
      processed := 0, inserted := 0, skipped := 0
      errMsg := some "setup error".toList, staging := []
      backupRenamed := false, mainRenameAttempted := false }
  else if !headersOk file.headers then
    { trace := [Phase.parsing, Phase.loading, Phase.error], status := .error
      processed := 0, inserted := 0, skipped := 0
      errMsg := some (headerErrMsg file.headers), staging := []
      backupRenamed := false, mainRenameAttempted := false }
  else if !env.loadOk then
    let st := runLoad (file.rows.take env.loadFailAfter)
    { trace := [Phase.parsing, Phase.loading, Phase.error], status := .error
      processed := st.processed, inserted := st.inserted, skipped := st.skipped
      errMsg := some "load error".toList, staging := st.staging
      backupRenamed := false, mainRenameAttempted := false }
  else
    let st := runLoad file.rows
    if !env.indexOk then
      { trace := [Phase.parsing, Phase.loading, Phase.indexing, Phase.error]
        status := .error
        processed := st.processed, inserted := st.inserted, skipped := st.skipped
        errMsg := some "index error".toList, staging := st.staging
        backupRenamed := false, mainRenameAttempted := false }
    else if !env.renameMainOk then
      { trace := [Phase.parsing, Phase.loading, Phase.indexing, Phase.swapping,
                  Phase.error]
        status := .error
        processed := st.processed, inserted := st.inserted, skipped := st.skipped
        errMsg := some "rename error".toList, staging := st.staging
        backupRenamed := env.renameBackupOk, mainRenameAttempted := true }
    else
      { trace := phaseChain, status := .done
        processed := st.processed, inserted := st.inserted, skipped := st.skipped
        errMsg := none, staging := st.staging
        backupRenamed := env.renameBackupOk, mainRenameAttempted := true }

/- ### Encoding resolution in `admin_upload_start` -/

/-- The fallback encoding candidates of line 393, in order. -/
def fallbackEncodings : List (List Char) :=
  ["utf-8".toList, "utf-8-sig".toList, "cp949".toList, "euc-kr".toList]

/-- The encoding-resolution code of lines 389–400: the preferred encoding is
tried on the first line of the saved file; on a `UnicodeDecodeError` the fixed
candidate list is tried in order and `enc` is set to the first candidate that
decodes; when every candidate also fails, `enc` keeps the preferred value.
`decodes e = true` means the first line of the uploaded file decodes under
encoding `e`. -/
def resolveEncoding (decodes : List Char → Bool) (preferred : List Char) :
    List Char :=
  if decodes preferred then preferred
  else
    match fallbackEncodings.find? decodes with
    | some e => e
    | none => preferred

/-- The outcome of `admin_upload_start` past the authentication and
file-presence checks: either a job is registered (phase `parsing`) and the
worker thread started, or an exception escapes the request handler and no job
exists. -/
inductive UploadOutcome
  | jobCreated (enc : List Char)
  | raised
deriving DecidableEq, Repr

/-- Lines 388–418 of `admin_upload_start`: after encoding resolution,
`_count_csv_lines_fast` re-reads the whole file with the resolved encoding;
if that encoding still cannot decode the first line, the `UnicodeDecodeError`
escapes the request handler before `JOBS[job_id]` is ever assigned, so no job
is created; otherwise the job is registered and the background thread
started. -/
def adminUploadStart (decodes : List Char → Bool) (preferred : List Char) :
    UploadOutcome :=
  let enc := resolveEncoding decodes preferred
  if decodes enc then .jobCreated enc else .raised

/- ### The job tracker and `admin_job_status` -/

/-- The mutable job record stored in `JOBS` (lines 404–415): the fields read
back by `admin_job_status`.  Times are rationals standing for the Python
floats returned by `time.time()`. -/
structure Job where
  status : Status
  phase : Phase
  total_rows : Nat
  processed_rows : Nat
  inserted : Nat
  skipped : Nat
  started_at : ℚ
  encoding : List Char
deriving DecidableEq, Repr

/-- Python `int()` on a rational: truncation toward zero. -/
def pyInt (q : ℚ) : ℤ := q.num / (q.den : ℤ)

/-- The derived view returned by `admin_job_status`: the job plus the two
derived fields. -/
structure JobView where
  job : Job
  elapsed_secs : ℤ
  eta_secs : Option ℤ
deriving DecidableEq, Repr

/-- `admin_job_status` (lines 423–439): 404 (`no such job`) for an unknown job
id; otherwise the job together with `elapsed_secs = int(now - started_at)` and
`eta_secs = int(remaining / rate)` where `rate = max(1, processed) /
max(1, elapsed)` — both the processed count and the elapsed time are clamped
to at least one before dividing, and the eta is only emitted under the
`rate > 0` guard. -/
def adminJobStatus (jobs : List (List Char × Job)) (i : List Char) (now : ℚ) :
    Except Nat JobView :=
  match jobs.lookup i with
  | none => .error 404
  | some job =>
    let elapsed : ℚ := if job.started_at ≠ 0 then now - job.started_at else 0
    let processed : ℚ := max 1 (job.processed_rows : ℚ)
    let rate : ℚ := processed / max 1 elapsed
    let remaining : ℚ := max 0 ((job.total_rows : ℚ) - processed)
    let eta : Option ℤ := if rate > 0 then some (pyInt (remaining / rate)) else none
    .ok { job := job, elapsed_secs := pyInt elapsed, eta_secs := eta }

/- ### Admin authentication -/

/-- The token check at the head of every admin endpoint (lines 371–372,
445–446, 585–586, …): `(request token or header token or "").strip()` is
compared with `os.environ.get("ADMIN_TOKEN", "")`. -/
def adminAuthOk (formTok hdrTok envTok : Option (List Char)) : Bool :=
  pyStrip (pyOrStr formTok (pyOrStr hdrTok [])) == envTok.getD []

/- ### The aggregation engine time normalization -/

/-- `$split` of an aggregation-pipeline string on a delimiter character. -/
def splitOnChar (c : Char) : List Char → List (List Char)
  | [] => [[]]
  | x :: xs =>
    match splitOnChar c xs with
    | [] => [[]]
    | y :: ys => if x = c then [] :: y :: ys else (x :: y) :: ys

/-- The `_padded_time` stage (lines 502–510): a stored time string shorter
than 5 characters gets a single `"0"` prepended, longer ones are unchanged. -/
def padTime (t : List Char) : List Char := if t.length < 5 then '0' :: t else t

/-- The `^\d+$` test of the `$regexMatch` guard. -/
def allDigits (s : List Char) : Bool := !s.isEmpty && s.all Char.isDigit

/-- `$toInt` on a digit string. -/
def digitsToNat (s : List Char) : Nat :=
  s.foldl (fun a c => a * 10 + (c.toNat - 48)) 0

/-- `$toInt` under the `$regexMatch` guard: a non-numeric part counts as 0. -/
def toIntGuard (s : List Char) : Nat := if allDigits s then digitsToNat s else 0

/-- The `minOfDay` computation of the aggregation pipeline (lines 511–529):
pad the stored time, split on `":"`, take the hour and minute parts (each
defaulting to `"0"` when absent via `$ifNull`), and compute
`hour * 60 + minute`. -/
def minOfDay (t : List Char) : Nat :=
  let pt := padTime t
  let parts := splitOnChar ':' pt
  let h := parts.getD 0 ['0']
  let m := parts.getD 1 ['0']
  toIntGuard h * 60 + toIntGuard m

/- ### Concrete inputs used by witnesses and counterexamples -/

/-- A valid raw CSV row. -/
def rowA : RecordDoc :=
  { unique_id := "a1".toList, date := "2025.09.19".toList
    time := "9:00".toList, serial := "S1".toList }

/-- The row `"ab1"` of the end-to-end case-collapse scenario. -/
def rowAb : RecordDoc :=
  { unique_id := "ab1".toList, date := "2025.09.19".toList
    time := "9:00".toList, serial := "S7".toList }

/-- The row `"AB1"`, differing from `rowAb` only in identifier case. -/
def rowAB : RecordDoc :=
  { unique_id := "AB1".toList, date := "2025.09.19".toList
    time := "9:00".toList, serial := "S7".toList }

/-- A file whose two data rows are exact duplicates. -/
def dupFile : CsvFile := { headers := REQUIRED_HEADERS, rows := [rowA, rowA] }

/-- A file whose two data rows differ only in identifier case. -/
def caseFile : CsvFile := { headers := REQUIRED_HEADERS, rows := [rowAb, rowAB] }

/-- A file missing three of the four required headers. -/
def badFile : CsvFile := { headers := ["unique_id".toList], rows := [rowA] }

/-- The environment in which every store/file operation succeeds. -/
def envAllOk : RunEnv :=
  { setupOk := true, loadOk := true, loadFailAfter := 0
    indexOk := true, renameBackupOk := true, renameMainOk := true }

/-- A job record with zero progress and zero start time, the edge case of the
eta computation. -/
def job0 : Job :=
  { status := .running, phase := .parsing, total_rows := 100
    processed_rows := 0, inserted := 0, skipped := 0
    started_at := 0, encoding := "utf-8".toList }

/- ### Character-level facts -/

theorem char_toNat_ofNat_valid {n : Nat} (h : n.isValidChar) :
    (Char.ofNat n).toNat = n := by
  simp only [Char.ofNat]
  rw [dif_pos h]
  rfl

theorem char_toNat_toUpper (c : Char) :
    (Char.toUpper c).toNat =
      if 97 ≤ c.toNat ∧ c.toNat ≤ 122 then c.toNat - 32 else c.toNat := by
  by_cases h : 97 ≤ c.toNat ∧ c.toNat ≤ 122
  · have hv : (c.toNat - 32).isValidChar := Or.inl (by omega)
    simp only [Char.toUpper, ge_iff_le]
    rw [if_pos h, if_pos h, char_toNat_ofNat_valid hv]
  · simp only [Char.toUpper, ge_iff_le]
    rw [if_neg h, if_neg h]

theorem char_eq_iff_toNat {a b : Char} : a = b ↔ a.toNat = b.toNat := by
  constructor
  · rintro rfl; rfl
  · intro h
    apply Char.eq_of_val_eq
    apply UInt32.eq_of_toBitVec_eq
    apply BitVec.eq_of_toNat_eq
    exact h

theorem pyIsSpace_le (c : Char) (h : pyIsSpace c = true) : c.toNat ≤ 32 := by
  simp only [pyIsSpace, Bool.or_eq_true, decide_eq_true_eq] at h
  rcases h with ((((h | h) | h) | h) | h) | h <;> subst h <;> decide

theorem pyIsSpace_toUpper (c : Char) : pyIsSpace (Char.toUpper c) = pyIsSpace c := by
  by_cases h : 97 ≤ c.toNat ∧ c.toNat ≤ 122
  · have h1 : (Char.toUpper c).toNat = c.toNat - 32 := by
      rw [char_toNat_toUpper, if_pos h]
    have h2 : pyIsSpace c = false := by
      cases hc : pyIsSpace c
      · rfl
      · exact absurd (pyIsSpace_le c hc) (by omega)
    have h3 : pyIsSpace (Char.toUpper c) = false := by
      cases hc : pyIsSpace (Char.toUpper c)
      · rfl
      · have hle := pyIsSpace_le _ hc
        rw [h1] at hle
        exact absurd hle (by omega)
    rw [h2, h3]
  · have he : Char.toUpper c = c := by
      apply char_eq_iff_toNat.mpr
      rw [char_toNat_toUpper, if_neg h]
    rw [he]

theorem toUpper_toUpper (c : Char) :
    Char.toUpper (Char.toUpper c) = Char.toUpper c := by
  by_cases h : 97 ≤ c.toNat ∧ c.toNat ≤ 122
  · have h1 : (Char.toUpper c).toNat = c.toNat - 32 := by
      rw [char_toNat_toUpper, if_pos h]
    have h2 : ¬(97 ≤ (Char.toUpper c).toNat ∧ (Char.toUpper c).toNat ≤ 122) := by
      rw [h1]; omega
    apply char_eq_iff_toNat.mpr
    rw [char_toNat_toUpper, if_neg h2]
  · have he : Char.toUpper c = c := by
      apply char_eq_iff_toNat.mpr
      rw [char_toNat_toUpper, if_neg h]
    rw [he]; exact he

/- ### `dropWhile` facts used for `strip` -/

theorem dropWhile_dropWhile (p : Char → Bool) (l : List Char) :
    (l.dropWhile p).dropWhile p = l.dropWhile p := by
  induction l with
  | nil => rfl
  | cons a t ih =>
    by_cases h : p a = true
    · rw [List.dropWhile_cons_of_pos h]; exact ih
    · rw [List.dropWhile_cons_of_neg h, List.dropWhile_cons_of_neg h]

theorem dropWhile_eq_self_of_head (p : Char → Bool) (l : List Char)
    (h : ∀ c, l.head? = some c → p c = false) : l.dropWhile p = l := by
  cases l with
  | nil => rfl
  | cons a t =>
    have ha : p a = false := h a rfl
    exact List.dropWhile_cons_of_neg (by simp [ha])

theorem head_dropWhile_false (p : Char → Bool) (l : List Char) :
    ∀ c, (l.dropWhile p).head? = some c → p c = false := by
  induction l with
  | nil => intro c hc; exact absurd hc (by simp)
  | cons a t ih =>
    intro c hc
    by_cases ha : p a = true
    · rw [List.dropWhile_cons_of_pos ha] at hc
      exact ih c hc
    · rw [List.dropWhile_cons_of_neg ha] at hc
      simp only [List.head?_cons, Option.some.injEq] at hc
      subst hc
      simpa using ha

theorem exists_dropTrail_append (l : List Char) : ∃ t, l = dropTrail l ++ t := by
  refine ⟨(l.reverse.takeWhile pyIsSpace).reverse, ?_⟩
  unfold dropTrail
  conv_rhs => rw [← List.reverse_append]
  rw [List.takeWhile_append_dropWhile, List.reverse_reverse]

theorem dropLead_dropLead (l : List Char) : dropLead (dropLead l) = dropLead l :=
  dropWhile_dropWhile _ _

theorem dropTrail_dropTrail (l : List Char) : dropTrail (dropTrail l) = dropTrail l := by
  unfold dropTrail
  rw [List.reverse_reverse, dropWhile_dropWhile]

theorem dropLead_dropTrail (l : List Char) (h : dropLead l = l) :
    dropLead (dropTrail l) = dropTrail l := by
  apply dropWhile_eq_self_of_head
  intro c hc
  obtain ⟨t, ht⟩ := exists_dropTrail_append l
  have hl : l.head? = some c := by
    cases hdt : dropTrail l with
    | nil => rw [hdt] at hc; exact absurd hc (by simp)
    | cons a xs =>
      rw [hdt] at hc
      simp only [List.head?_cons, Option.some.injEq] at hc
      subst hc
      have ht2 : l = (a :: xs) ++ t := by rw [← hdt]; exact ht
      rw [ht2]; rfl
  refine head_dropWhile_false pyIsSpace l c ?_
  show (dropLead l).head? = some c
  rw [h]; exact hl

theorem dropWhile_map_toUpper (l : List Char) (h : l.dropWhile pyIsSpace = l) :
    (pyUpper l).dropWhile pyIsSpace = pyUpper l := by
  apply dropWhile_eq_self_of_head
  intro c hc
  cases l with
  | nil => exact absurd hc (by simp [pyUpper])
  | cons a t =>
    simp only [pyUpper, List.map_cons, List.head?_cons, Option.some.injEq] at hc
    subst hc
    rw [pyIsSpace_toUpper]
    exact head_dropWhile_false pyIsSpace (a :: t) a (by rw [h]; rfl)

/- ### `strip`/`upper` interaction -/

theorem dropLead_pyStrip (l : List Char) : dropLead (pyStrip l) = pyStrip l :=
  dropLead_dropTrail _ (dropLead_dropLead l)

theorem dropTrail_pyStrip (l : List Char) : dropTrail (pyStrip l) = pyStrip l :=
  dropTrail_dropTrail _

theorem pyStrip_idem (l : List Char) : pyStrip (pyStrip l) = pyStrip l := by
  show dropTrail (dropLead (pyStrip l)) = pyStrip l
  rw [dropLead_pyStrip, dropTrail_pyStrip]

theorem pyUpper_pyUpper (l : List Char) : pyUpper (pyUpper l) = pyUpper l := by
  simp only [pyUpper, List.map_map]
  induction l with
  | nil => rfl
  | cons a t ih =>
    simp only [List.map_cons, List.cons.injEq]
    exact ⟨toUpper_toUpper a, ih⟩

theorem pyStrip_pyUpper_pyStrip (l : List Char) :
    pyStrip (pyUpper (pyStrip l)) = pyUpper (pyStrip l) := by
  have hLead : List.dropWhile pyIsSpace (pyStrip l) = pyStrip l := dropLead_pyStrip l
  have hTrail : (List.dropWhile pyIsSpace (pyStrip l).reverse).reverse = pyStrip l :=
    dropTrail_pyStrip l
  have hTrail2 : List.dropWhile pyIsSpace (pyStrip l).reverse = (pyStrip l).reverse := by
    have hcongr := congrArg List.reverse hTrail
    rwa [List.reverse_reverse] at hcongr
  show dropTrail (dropLead (pyUpper (pyStrip l))) = pyUpper (pyStrip l)
  have h1 : dropLead (pyUpper (pyStrip l)) = pyUpper (pyStrip l) :=
    dropWhile_map_toUpper _ hLead
  rw [h1]
  unfold dropTrail
  have hrev : (pyUpper (pyStrip l)).reverse = pyUpper (pyStrip l).reverse := by
    simp [pyUpper]
  rw [hrev, dropWhile_map_toUpper _ hTrail2, ← hrev, List.reverse_reverse]

/- ### Loader lemmas -/

theorem loadRow_invalid {raw : RecordDoc} (st : LoadState)
    (h : validDoc (normalizeRow raw) = false) :
    loadRow st raw =
      { st with skipped := st.skipped + 1, processed := st.processed + 1 } := by
  simp [loadRow, h]

theorem loadRow_dup {raw : RecordDoc} (st : LoadState)
    (h : validDoc (normalizeRow raw) = true) (hm : normalizeRow raw ∈ st.staging) :
    loadRow st raw = { st with processed := st.processed + 1 } := by
  simp [loadRow, h, hm]

theorem loadRow_new {raw : RecordDoc} (st : LoadState)
    (h : validDoc (normalizeRow raw) = true) (hm : normalizeRow raw ∉ st.staging) :
    loadRow st raw =
      { staging := st.staging ++ [normalizeRow raw]
        processed := st.processed + 1
        inserted := st.inserted + 1
        skipped := st.skipped } := by
  simp [loadRow, h, hm]

/-- The loop invariant of the staging load: `processed` counts every row,
`skipped` counts the invalid rows, `inserted` grows exactly with the staging
collection, the staging collection holds exactly the already-present records
plus the normalized valid rows, and it stays duplicate-free. -/
theorem foldl_loadRow_spec (rows : List RecordDoc) (st : LoadState) :
    (rows.foldl loadRow st).processed = st.processed + rows.length ∧
    (rows.foldl loadRow st).skipped
      = st.skipped + (rows.filter fun r => !validDoc (normalizeRow r)).length ∧
    (rows.foldl loadRow st).inserted + st.staging.length
      = st.inserted + (rows.foldl loadRow st).staging.length ∧
    (∀ x, x ∈ (rows.foldl loadRow st).staging ↔
      x ∈ st.staging ∨ ∃ r ∈ rows, validDoc (normalizeRow r) = true ∧ normalizeRow r = x) ∧
    (st.staging.Nodup → (rows.foldl loadRow st).staging.Nodup) := by
  induction rows generalizing st with
  | nil => simp
  | cons a t ih =>
    rw [List.foldl_cons]
    by_cases hv : validDoc (normalizeRow a) = true
    · by_cases hm : normalizeRow a ∈ st.staging
      · rw [loadRow_dup st hv hm]
        obtain ⟨ihp, ihs, ihi, ihm, ihn⟩ := ih { st with processed := st.processed + 1 }
        refine ⟨?_, ?_, ?_, ?_, ?_⟩
        · rw [ihp]
          show st.processed + 1 + t.length = st.processed + (t.length + 1)
          omega
        · rw [ihs]
          simp [List.filter_cons, hv]
        · exact ihi
        · intro x
          rw [ihm x]
          constructor
          · rintro (h | ⟨r, hr, h1, h2⟩)
            · exact Or.inl h
            · exact Or.inr ⟨r, List.mem_cons_of_mem _ hr, h1, h2⟩
          · rintro (h | ⟨r, hr, h1, h2⟩)
            · exact Or.inl h
            · rcases List.mem_cons.mp hr with rfl | hr2
              · exact Or.inl (h2 ▸ hm)
              · exact Or.inr ⟨r, hr2, h1, h2⟩
        · exact ihn
      · rw [loadRow_new st hv hm]
        obtain ⟨ihp, ihs, ihi, ihm, ihn⟩ :=
          ih { staging := st.staging ++ [normalizeRow a]
               processed := st.processed + 1
               inserted := st.inserted + 1
               skipped := st.skipped }
        refine ⟨?_, ?_, ?_, ?_, ?_⟩
        · rw [ihp]
          show st.processed + 1 + t.length = st.processed + (t.length + 1)
          omega
        · rw [ihs]
          simp [List.filter_cons, hv]
        · simp only [List.length_append, List.length_singleton] at ihi
          omega
        · intro x
          rw [ihm x]
          constructor
          · rintro (h | ⟨r, hr, h1, h2⟩)
            · rcases List.mem_append.mp h with h2 | h2
              · exact Or.inl h2
              · exact Or.inr ⟨a, List.mem_cons_self _ _, hv, (List.mem_singleton.mp h2).symm⟩
            · exact Or.inr ⟨r, List.mem_cons_of_mem _ hr, h1, h2⟩
          · rintro (h | ⟨r, hr, h1, h2⟩)
            · exact Or.inl (List.mem_append.mpr (Or.inl h))
            · rcases List.mem_cons.mp hr with rfl | hr2
              · exact Or.inl (List.mem_append.mpr (Or.inr (by simp [h2.symm])))
              · exact Or.inr ⟨r, hr2, h1, h2⟩
        · intro hnd
          apply ihn
          rw [List.nodup_append]
          exact ⟨hnd, List.nodup_singleton _, by simpa using hm⟩
    · rw [loadRow_invalid st (by simpa using hv)]
      obtain ⟨ihp, ihs, ihi, ihm, ihn⟩ :=
        ih { st with skipped := st.skipped + 1, processed := st.processed + 1 }
      refine ⟨?_, ?_, ?_, ?_, ?_⟩
      · rw [ihp]
        show st.processed + 1 + t.length = st.processed + (t.length + 1)
        omega
      · rw [ihs]
        have hv2 : validDoc (normalizeRow a) = false := by simpa using hv
        simp [List.filter_cons, hv2]
        show st.skipped + 1 + _ = st.skipped + (_ + 1)
        omega
      · exact ihi
      · intro x
        rw [ihm x]
        constructor
        · rintro (h | ⟨r, hr, h1, h2⟩)
          · exact Or.inl h
          · exact Or.inr ⟨r, List.mem_cons_of_mem _ hr, h1, h2⟩
        · rintro (h | ⟨r, hr, h1, h2⟩)
          · exact Or.inl h
          · rcases List.mem_cons.mp hr with rfl | hr2
            · exact absurd h1 hv
            · exact Or.inr ⟨r, hr2, h1, h2⟩
      · exact ihn

theorem runLoad_processed (rows : List RecordDoc) :
    (runLoad rows).processed = rows.length := by
  have h := (foldl_loadRow_spec rows
    { staging := [], processed := 0, inserted := 0, skipped := 0 }).1
  simpa [runLoad] using h

theorem runLoad_skipped (rows : List RecordDoc) :
    (runLoad rows).skipped = (rows.filter fun r => !validDoc (normalizeRow r)).length := by
  have h := (foldl_loadRow_spec rows
    { staging := [], processed := 0, inserted := 0, skipped := 0 }).2.1
  simpa [runLoad] using h

theorem runLoad_inserted_staging (rows : List RecordDoc) :
    (runLoad rows).inserted = (runLoad rows).staging.length := by
  have h := (foldl_loadRow_spec rows
    { staging := [], processed := 0, inserted := 0, skipped := 0 }).2.2.1
  simpa [runLoad] using h

theorem runLoad_staging_mem (rows : List RecordDoc) (x : RecordDoc) :
    x ∈ (runLoad rows).staging ↔ x ∈ validDocs rows := by
  have h := (foldl_loadRow_spec rows
    { staging := [], processed := 0, inserted := 0, skipped := 0 }).2.2.2.1 x
  rw [runLoad, h]
  simp only [List.not_mem_nil, false_or, validDocs, List.mem_filter, List.mem_map]
  constructor
  · rintro ⟨r, hr, h1, h2⟩
    exact ⟨⟨r, hr, h2⟩, h2 ▸ h1⟩
  · rintro ⟨⟨r, hr, h2⟩, h1⟩
    exact ⟨r, hr, h2 ▸ h1, h2⟩

theorem runLoad_staging_nodup (rows : List RecordDoc) :
    (runLoad rows).staging.Nodup := by
  have h := (foldl_loadRow_spec rows
    { staging := [], processed := 0, inserted := 0, skipped := 0 }).2.2.2.2
  exact h List.nodup_nil

/-- `inserted` at the end of the load equals the number of distinct normalized
valid 4-tuples in the file. -/
theorem runLoad_inserted_dedup (rows : List RecordDoc) :
    (runLoad rows).inserted = (validDocs rows).dedup.length := by
  rw [runLoad_inserted_staging]
  have hperm : (runLoad rows).staging.Perm (validDocs rows).dedup := by
    rw [List.perm_ext_iff_of_nodup (runLoad_staging_nodup rows) (List.nodup_dedup _)]
    intro a
    rw [runLoad_staging_mem, List.mem_dedup]
  exact hperm.length_eq

/- ### Branch characterizations of `_run_replace_job` -/

theorem runReplaceJob_setup_fail (file : CsvFile) (env : RunEnv)
    (h1 : env.setupOk = false) :
    runReplaceJob file env =
      { trace := [Phase.parsing, Phase.error], status := .error
        processed := 0, inserted := 0, skipped := 0
        errMsg := some "setup error".toList, staging := []
        backupRenamed := false, mainRenameAttempted := false } := by
  unfold runReplaceJob
  rw [h1]
  rfl

theorem runReplaceJob_header_fail (file : CsvFile) (env : RunEnv)
    (h1 : env.setupOk = true) (h2 : headersOk file.headers = false) :
    runReplaceJob file env =
      { trace := [Phase.parsing, Phase.loading, Phase.error], status := .error
        processed := 0, inserted := 0, skipped := 0
        errMsg := some (headerErrMsg file.headers), staging := []
        backupRenamed := false, mainRenameAttempted := false } := by
  unfold runReplaceJob
  rw [h1, h2]
  rfl

theorem runReplaceJob_load_fail (file : CsvFile) (env : RunEnv)
    (h1 : env.setupOk = true) (h2 : headersOk file.headers = true)
    (h3 : env.loadOk = false) :
    runReplaceJob file env =
      { trace := [Phase.parsing, Phase.loading, Phase.error], status := .error
        processed := (runLoad (file.rows.take env.loadFailAfter)).processed
        inserted := (runLoad (file.rows.take env.loadFailAfter)).inserted
        skipped := (runLoad (file.rows.take env.loadFailAfter)).skipped
        errMsg := some "load error".toList
        staging := (runLoad (file.rows.take env.loadFailAfter)).staging
        backupRenamed := false, mainRenameAttempted := false } := by
  unfold runReplaceJob
  rw [h1, h2, h3]
  rfl

theorem runReplaceJob_index_fail (file : CsvFile) (env : RunEnv)
    (h1 : env.setupOk = true) (h2 : headersOk file.headers = true)
    (h3 : env.loadOk = true) (h4 : env.indexOk = false) :
    runReplaceJob file env =
      { trace := [Phase.parsing, Phase.loading, Phase.indexing, Phase.error]
        status := .error
        processed := (runLoad file.rows).processed
        inserted := (runLoad file.rows).inserted
        skipped := (runLoad file.rows).skipped
        errMsg := some "index error".toList
        staging := (runLoad file.rows).staging
        backupRenamed := false, mainRenameAttempted := false } := by
  unfold runReplaceJob
  rw [h1, h2, h3, h4]
  rfl

theorem runReplaceJob_rename_fail (file : CsvFile) (env : RunEnv)
    (h1 : env.setupOk = true) (h2 : headersOk file.headers = true)
    (h3 : env.loadOk = true) (h4 : env.indexOk = true)
    (h5 : env.renameMainOk = false) :
    runReplaceJob file env =
      { trace := [Phase.parsing, Phase.loading, Phase.indexing, Phase.swapping,
                  Phase.error]
        status := .error
        processed := (runLoad file.rows).processed
        inserted := (runLoad file.rows).inserted
        skipped := (runLoad file.rows).skipped
        errMsg := some "rename error".toList
        staging := (runLoad file.rows).staging
        backupRenamed := env.renameBackupOk, mainRenameAttempted := true } := by
  unfold runReplaceJob
  rw [h1, h2, h3, h4, h5]
  rfl

theorem runReplaceJob_success (file : CsvFile) (env : RunEnv)
    (h1 : env.setupOk = true) (h2 : headersOk file.headers = true)
    (h3 : env.loadOk = true) (h4 : env.indexOk = true)
    (h5 : env.renameMainOk = true) :
    runReplaceJob file env =
      { trace := phaseChain, status := .done
        processed := (runLoad file.rows).processed
        inserted := (runLoad file.rows).inserted
        skipped := (runLoad file.rows).skipped
        errMsg := none
        staging := (runLoad file.rows).staging
        backupRenamed := env.renameBackupOk, mainRenameAttempted := true } := by
  unfold runReplaceJob
  rw [h1, h2, h3, h4, h5]
  rfl

theorem runReplaceJob_status_done_iff (file : CsvFile) (env : RunEnv) :
    (runReplaceJob file env).status = Status.done ↔
      env.setupOk = true ∧ headersOk file.headers = true ∧ env.loadOk = true ∧
      env.indexOk = true ∧ env.renameMainOk = true := by
  cases h1 : env.setupOk with
  | false => rw [runReplaceJob_setup_fail file env h1]; simp
  | true =>
    cases h2 : headersOk file.headers with
    | false => rw [runReplaceJob_header_fail file env h1 h2]; simp
    | true =>
      cases h3 : env.loadOk with
      | false => rw [runReplaceJob_load_fail file env h1 h2 h3]; simp
      | true =>
        cases h4 : env.indexOk with
        | false => rw [runReplaceJob_index_fail file env h1 h2 h3 h4]; simp
        | true =>
          cases h5 : env.renameMainOk with
          | false => rw [runReplaceJob_rename_fail file env h1 h2 h3 h4 h5]; simp
          | true => rw [runReplaceJob_success file env h1 h2 h3 h4 h5]; simp

/- ### Claim theorems: phases, counters, staging, swap -/

/-- C3: for every file and every combination of store/file failures, the
sequence of phase values taken by `_run_replace_job` is a prefix of
parsing → loading → indexing → swapping → done, or such a prefix followed by
the terminal `error` phase; no other phase order occurs. -/
theorem C3_phase_chain (file : CsvFile) (env : RunEnv) :
    (∃ k, (runReplaceJob file env).trace = phaseChain.take k) ∨
    (∃ k, (runReplaceJob file env).trace = phaseChain.take k ++ [Phase.error]) := by
  cases h1 : env.setupOk with
  | false => rw [runReplaceJob_setup_fail file env h1]; exact Or.inr ⟨1, rfl⟩
  | true =>
    cases h2 : headersOk file.headers with
    | false => rw [runReplaceJob_header_fail file env h1 h2]; exact Or.inr ⟨2, rfl⟩
    | true =>
      cases h3 : env.loadOk with
      | false => rw [runReplaceJob_load_fail file env h1 h2 h3]; exact Or.inr ⟨2, rfl⟩
      | true =>
        cases h4 : env.indexOk with
        | false => rw [runReplaceJob_index_fail file env h1 h2 h3 h4]; exact Or.inr ⟨3, rfl⟩
        | true =>
          cases h5 : env.renameMainOk with
          | false =>
            rw [runReplaceJob_rename_fail file env h1 h2 h3 h4 h5]
            exact Or.inr ⟨4, rfl⟩
          | true =>
            rw [runReplaceJob_success file env h1 h2 h3 h4 h5]
            exact Or.inl ⟨5, rfl⟩

/-- C10: every exception of the active→backup rename (step 2 of the swap) is
swallowed — every observable part of the run except the backup-rename outcome
itself is independent of whether that rename succeeds, the staging→active
rename is attempted whenever the swap phase is reached (regardless of the
step-2 outcome), and consequently a step-2 failure alone never puts the job in
error state. -/
theorem C10_swap_swallows_backup_failure (file : CsvFile)
    (s ld : Bool) (n : Nat) (ix bk1 bk2 rm : Bool) :
    ((runReplaceJob file (RunEnv.mk s ld n ix bk1 rm)).trace
        = (runReplaceJob file (RunEnv.mk s ld n ix bk2 rm)).trace ∧
      (runReplaceJob file (RunEnv.mk s ld n ix bk1 rm)).status
        = (runReplaceJob file (RunEnv.mk s ld n ix bk2 rm)).status ∧
      (runReplaceJob file (RunEnv.mk s ld n ix bk1 rm)).processed
        = (runReplaceJob file (RunEnv.mk s ld n ix bk2 rm)).processed ∧
      (runReplaceJob file (RunEnv.mk s ld n ix bk1 rm)).inserted
        = (runReplaceJob file (RunEnv.mk s ld n ix bk2 rm)).inserted ∧
      (runReplaceJob file (RunEnv.mk s ld n ix bk1 rm)).skipped
        = (runReplaceJob file (RunEnv.mk s ld n ix bk2 rm)).skipped ∧
      (runReplaceJob file (RunEnv.mk s ld n ix bk1 rm)).errMsg
        = (runReplaceJob file (RunEnv.mk s ld n ix bk2 rm)).errMsg ∧
      (runReplaceJob file (RunEnv.mk s ld n ix bk1 rm)).staging
        = (runReplaceJob file (RunEnv.mk s ld n ix bk2 rm)).staging ∧
      (runReplaceJob file (RunEnv.mk s ld n ix bk1 rm)).mainRenameAttempted
        = (runReplaceJob file (RunEnv.mk s ld n ix bk2 rm)).mainRenameAttempted) ∧
    (runReplaceJob file (RunEnv.mk s ld n ix bk1 rm)).mainRenameAttempted
      = (s && headersOk file.headers && ld && ix) := by
  unfold runReplaceJob
  cases s <;> cases ld <;> cases ix <;> cases rm <;>
    by_cases h2 : headersOk file.headers = true <;>
      simp [h2]

/-- A list splits into the part satisfying `p` and the part failing it. -/
theorem length_filter_partition {α : Type} (p : α → Bool) (l : List α) :
    (l.filter p).length + (l.filter fun a => !p a).length = l.length := by
  induction l with
  | nil => rfl
  | cons a t ih =>
    by_cases h : p a = true <;> simp [List.filter_cons, h] <;> omega

theorem validDocs_length (rows : List RecordDoc) :
    (validDocs rows).length = (rows.filter fun r => validDoc (normalizeRow r)).length := by
  rw [validDocs, List.filter_map, List.length_map]
  rfl

/-- C1 counterexample: a file whose two valid data rows are exact duplicate
4-tuples completes with `processed_rows = 2` but `inserted = 1` and
`skipped = 0`; the claimed equality `processed = inserted + skipped` fails at
job completion. -/
theorem C1_counterexample :
    (runReplaceJob dupFile envAllOk).status = Status.done ∧
    (runReplaceJob dupFile envAllOk).processed = 2 ∧
    (runReplaceJob dupFile envAllOk).inserted = 1 ∧
    (runReplaceJob dupFile envAllOk).skipped = 0 ∧
    ¬((runReplaceJob dupFile envAllOk).processed
        = (runReplaceJob dupFile envAllOk).inserted
          + (runReplaceJob dupFile envAllOk).skipped) := by
  decide

/-- C1 (amended): when the job reaches terminal state `done`, `processed_rows`
counts every data row, `skipped` counts the invalid rows, `inserted` counts
the distinct normalized valid 4-tuples, and
`inserted + skipped + (number of duplicate valid rows) = processed_rows`; the
claimed equality `processed = inserted + skipped` therefore holds exactly for
files without duplicate valid 4-tuples, and fails when duplicates exist. -/
theorem C1_amended (file : CsvFile) (env : RunEnv)
    (h : (runReplaceJob file env).status = Status.done) :
    (runReplaceJob file env).processed = file.rows.length ∧
    (runReplaceJob file env).skipped
      = (file.rows.filter fun r => !validDoc (normalizeRow r)).length ∧
    (runReplaceJob file env).inserted = (validDocs file.rows).dedup.length ∧
    (runReplaceJob file env).inserted + (runReplaceJob file env).skipped
        + ((validDocs file.rows).length - (validDocs file.rows).dedup.length)
      = (runReplaceJob file env).processed := by
  obtain ⟨h1, h2, h3, h4, h5⟩ := (runReplaceJob_status_done_iff file env).mp h
  rw [runReplaceJob_success file env h1 h2 h3 h4 h5]
  refine ⟨runLoad_processed _, runLoad_skipped _, runLoad_inserted_dedup _, ?_⟩
  show (runLoad file.rows).inserted + (runLoad file.rows).skipped
      + ((validDocs file.rows).length - (validDocs file.rows).dedup.length)
    = (runLoad file.rows).processed
  rw [runLoad_processed, runLoad_skipped, runLoad_inserted_dedup]
  have hsub : (validDocs file.rows).dedup.length ≤ (validDocs file.rows).length :=
    (List.dedup_sublist _).length_le
  have hpart := length_filter_partition (fun r => validDoc (normalizeRow r)) file.rows
  rw [← validDocs_length] at hpart
  omega

/-- C1 witness: the amended statement evaluated on the duplicate-row file. -/
theorem C1_amended_witness :
    (runReplaceJob dupFile envAllOk).processed = dupFile.rows.length ∧
    (runReplaceJob dupFile envAllOk).skipped
      = (dupFile.rows.filter fun r => !validDoc (normalizeRow r)).length ∧
    (runReplaceJob dupFile envAllOk).inserted = (validDocs dupFile.rows).dedup.length ∧
    (runReplaceJob dupFile envAllOk).inserted + (runReplaceJob dupFile envAllOk).skipped
        + ((validDocs dupFile.rows).length - (validDocs dupFile.rows).dedup.length)
      = (runReplaceJob dupFile envAllOk).processed :=
  C1_amended dupFile envAllOk (by decide)

/-- C2: once the staging load has completed, the staging dataset is
duplicate-free and contains each normalized valid 4-tuple of the file exactly
once and nothing else — any two rows whose normalized 4-tuples agree
(including rows differing only in identifier case) collapse to one stored
record. -/
theorem C2_staging_dedup (file : CsvFile) (env : RunEnv) (x : RecordDoc)
    (h1 : env.setupOk = true) (h2 : headersOk file.headers = true)
    (h3 : env.loadOk = true) :
    (runReplaceJob file env).staging.Nodup ∧
    List.count x (runReplaceJob file env).staging
      = if x ∈ validDocs file.rows then 1 else 0 := by
  have hs : (runReplaceJob file env).staging = (runLoad file.rows).staging := by
    cases h4 : env.indexOk with
    | false => rw [runReplaceJob_index_fail file env h1 h2 h3 h4]
    | true =>
      cases h5 : env.renameMainOk with
      | false => rw [runReplaceJob_rename_fail file env h1 h2 h3 h4 h5]
      | true => rw [runReplaceJob_success file env h1 h2 h3 h4 h5]
  rw [hs]
  refine ⟨runLoad_staging_nodup _, ?_⟩
  rw [List.count_eq_of_nodup (runLoad_staging_nodup _)]
  by_cases hm : x ∈ validDocs file.rows
  · rw [if_pos ((runLoad_staging_mem _ x).mpr hm), if_pos hm]
  · rw [if_neg (fun hc => hm ((runLoad_staging_mem _ x).mp hc)), if_neg hm]

/-- C2 witness: the end-to-end case-collapse scenario — two rows differing
only in identifier case produce a single stored record. -/
theorem C2_staging_dedup_witness :
    (runReplaceJob caseFile envAllOk).staging.Nodup ∧
    List.count (normalizeRow rowAb) (runReplaceJob caseFile envAllOk).staging
      = if normalizeRow rowAb ∈ validDocs caseFile.rows then 1 else 0 :=
  C2_staging_dedup caseFile envAllOk (normalizeRow rowAb) rfl (by decide) rfl

/- ### Substring facts for the header error message -/

theorem joinSep_one (sep x : List Char) : joinSep sep [x] = x := rfl

theorem joinSep_cons2 (sep a b : List Char) (ts : List (List Char)) :
    joinSep sep (a :: b :: ts) = a ++ sep ++ joinSep sep (b :: ts) := rfl

theorem occursIn_append (n p q : List Char) : occursIn n (p ++ (n ++ q)) = true := by
  rw [occursIn, List.any_eq_true]
  refine ⟨p.length, ?_, ?_⟩
  · rw [List.mem_range]
    simp only [List.length_append]
    omega
  · rw [List.drop_left, List.take_left]
    simp

theorem joinSep_mem (sep : List Char) (l : List (List Char)) (x : List Char)
    (hx : x ∈ l) : ∃ p q, joinSep sep l = p ++ (x ++ q) := by
  induction l with
  | nil => cases hx
  | cons a t ih =>
    rcases List.mem_cons.mp hx with rfl | hx2
    · cases t with
      | nil => exact ⟨[], [], by simp [joinSep_one]⟩
      | cons b ts =>
        refine ⟨[], sep ++ joinSep sep (b :: ts), ?_⟩
        rw [joinSep_cons2]
        simp [List.append_assoc]
    · cases t with
      | nil => cases hx2
      | cons b ts =>
        obtain ⟨p, q, hpq⟩ := ih hx2
        refine ⟨a ++ sep ++ p, q, ?_⟩
        rw [joinSep_cons2, hpq]
        simp [List.append_assoc]

/-- Every found header name occurs verbatim inside the header error text. -/
theorem occursIn_headerErrMsg (headers : List (List Char)) (x : List Char)
    (hx : x ∈ normSet headers) : occursIn x (headerErrMsg headers) = true := by
  obtain ⟨p, q, hp⟩ := joinSep_mem [',', ' '] ((normSet headers).map pyReprStr)
    (pyReprStr x) (List.mem_map_of_mem _ hx)
  have he : headerErrMsg headers
      = ("CSV 헤더 불일치: got=".toList ++ ('[' :: p) ++ ['\''])
        ++ (x ++ ('\'' :: (q ++ [']']))) := by
    rw [headerErrMsg, pyReprList, hp, pyReprStr]
    simp [List.append_assoc]
  rw [he]
  exact occursIn_append x _ _

/- ### Claim theorems: header mismatch -/

/-- C5 counterexample: for the upload whose only header is `unique_id`, the
job error message is `CSV 헤더 불일치: got=['unique_id']`; the required header
`날짜` does not occur in it, so the message does not include the required
header set. -/
theorem C5_counterexample :
    (runReplaceJob badFile envAllOk).errMsg = some (headerErrMsg badFile.headers) ∧
    occursIn "날짜".toList (headerErrMsg badFile.headers) = false := by
  constructor
  · decide
  · decide

/-- C5 (amended): a file missing a required header fails during the loading
phase before any data row is processed — `processed_rows` stays 0 and the
staging dataset stays empty — and the error message reports the header set
actually found (every found header name occurs in the message); the required
header set is not part of the message. -/
theorem C5_amended (file : CsvFile) (env : RunEnv)
    (h1 : env.setupOk = true) (h2 : headersOk file.headers = false) :
    (runReplaceJob file env).status = Status.error ∧
    (runReplaceJob file env).processed = 0 ∧
    (runReplaceJob file env).staging = [] ∧
    (runReplaceJob file env).errMsg = some (headerErrMsg file.headers) ∧
    ∀ x ∈ normSet file.headers, occursIn x (headerErrMsg file.headers) = true := by
  rw [runReplaceJob_header_fail file env h1 h2]
  exact ⟨rfl, rfl, rfl, rfl, fun x hx => occursIn_headerErrMsg file.headers x hx⟩

/-- C5 witness: the amended statement evaluated on the one-header file. -/
theorem C5_amended_witness :
    (runReplaceJob badFile envAllOk).status = Status.error ∧
    (runReplaceJob badFile envAllOk).processed = 0 ∧
    (runReplaceJob badFile envAllOk).staging = [] ∧
    (runReplaceJob badFile envAllOk).errMsg = some (headerErrMsg badFile.headers) ∧
    ∀ x ∈ normSet badFile.headers, occursIn x (headerErrMsg badFile.headers) = true :=
  C5_amended badFile envAllOk rfl (by decide)

/- ### Claim theorems: encoding resolution -/

/-- C4 counterexample: when neither the preferred encoding nor any fallback
candidate decodes the first line, the upload request raises out of the
synchronous handler and no job is created — the failure is not surfaced as a
job error. -/
theorem C4_counterexample :
    adminUploadStart (fun _ => false) "utf-8".toList = UploadOutcome.raised ∧
    UploadOutcome.raised ≠ UploadOutcome.jobCreated "utf-8".toList := by
  constructor
  · rfl
  · decide

/-- C4 (amended): the resolver tries the preferred encoding first and, when it
fails, tries utf-8, utf-8-sig (byte-order-mark stripped), cp949, euc-kr in
that order, settling on the first candidate that decodes the first line; when
every candidate fails, the resolved encoding stays the preferred one and the
subsequent line count raises synchronously inside the upload request before
any job is registered, so the failure surfaces as a request error and never as
a job error. -/
theorem C4_amended (decodes : List Char → Bool) (preferred : List Char) :
    (decodes preferred = false →
      resolveEncoding decodes preferred
        = (fallbackEncodings.find? decodes).getD preferred) ∧
    ((∀ e ∈ preferred :: fallbackEncodings, decodes e = false) →
      adminUploadStart decodes preferred = UploadOutcome.raised) := by
  constructor
  · intro h
    rw [resolveEncoding, if_neg (by simp [h])]
    cases hf : fallbackEncodings.find? decodes with
    | none => rfl
    | some e => rfl
  · intro h
    have hp : decodes preferred = false := h _ (List.mem_cons_self _ _)
    have hf : fallbackEncodings.find? decodes = none := by
      rw [List.find?_eq_none]
      intro x hx
      simp [h x (List.mem_cons_of_mem _ hx)]
    simp [adminUploadStart, resolveEncoding, hp, hf]

/-- C4 witness: the amended statement evaluated on an input where nothing
decodes. -/
theorem C4_amended_witness :
    adminUploadStart (fun _ => false) "cp949".toList = UploadOutcome.raised :=
  (C4_amended (fun _ => false) "cp949".toList).2 (fun _ _ => rfl)

/- ### Claim theorems: aggregation time normalization -/

/-- C6: every stored time string shorter than 5 characters is left-padded with
a single leading zero, the padded string is parsed into minutes-of-day as
hour * 60 + minute, and in particular `"0:39"` yields 39 and `"23:05"` yields
1385. -/
theorem C6_time_padding :
    (∀ t : List Char, t.length < 5 → padTime t = '0' :: t) ∧
    (∀ t : List Char, minOfDay t
        = toIntGuard ((splitOnChar ':' (padTime t)).getD 0 ['0']) * 60
          + toIntGuard ((splitOnChar ':' (padTime t)).getD 1 ['0'])) ∧
    minOfDay "0:39".toList = 39 ∧ minOfDay "23:05".toList = 1385 := by
  refine ⟨?_, fun t => rfl, by decide, by decide⟩
  intro t ht
  rw [padTime, if_pos ht]

/-- C6 witness: the padding fact and the minute-of-day value at `"0:39"`. -/
theorem C6_time_padding_witness :
    padTime "0:39".toList = '0' :: "0:39".toList ∧ minOfDay "0:39".toList = 39 :=
  ⟨C6_time_padding.1 _ (by decide), C6_time_padding.2.2.1⟩

/- ### Claim theorems: job status poll -/

/-- C7: for every stored job the status poll's guarded rate
`max(1, processed) / max(1, elapsed)` is strictly positive — no division by
zero occurs for any job state, including `processed_rows = 0` and zero
elapsed time — so a defined eta is always produced; an unknown job id yields
404. -/
theorem C7_job_status_safe (jobs : List (List Char × Job)) (i : List Char) (now : ℚ) :
    (jobs.lookup i = none → adminJobStatus jobs i now = .error 404) ∧
    (∀ job, jobs.lookup i = some job →
      0 < max 1 (if job.started_at ≠ 0 then now - job.started_at else 0) ∧
      0 < max 1 (job.processed_rows : ℚ)
            / max 1 (if job.started_at ≠ 0 then now - job.started_at else 0) ∧
      ∃ v, adminJobStatus jobs i now = .ok v ∧ v.eta_secs ≠ none) := by
  constructor
  · intro h
    unfold adminJobStatus
    rw [h]
  · intro job h
    have h1 : (0 : ℚ) < max 1 (if job.started_at ≠ 0 then now - job.started_at else 0) :=
      lt_of_lt_of_le one_pos (le_max_left _ _)
    have h2 : (0 : ℚ) < max 1 (job.processed_rows : ℚ) :=
      lt_of_lt_of_le one_pos (le_max_left _ _)
    have h3 : (0 : ℚ) < max 1 (job.processed_rows : ℚ)
        / max 1 (if job.started_at ≠ 0 then now - job.started_at else 0) :=
      div_pos h2 h1
    refine ⟨h1, h3, ?_⟩
    unfold adminJobStatus
    rw [h]
    refine ⟨_, rfl, ?_⟩
    show (if (0 : ℚ) < max 1 (job.processed_rows : ℚ)
        / max 1 (if job.started_at ≠ 0 then now - job.started_at else 0)
      then some (pyInt _) else none) ≠ none
    rw [if_pos h3]
    simp

/-- C7 witness: a job with `processed_rows = 0` and `started_at = 0` still
gets a defined eta. -/
theorem C7_job_status_safe_witness :
    ∃ v, adminJobStatus [("j1".toList, job0)] "j1".toList 5 = .ok v ∧
      v.eta_secs ≠ none :=
  ((C7_job_status_safe [("j1".toList, job0)] "j1".toList 5).2 job0 (by decide)).2.2

/- ### Claim theorems: admin authentication -/

/-- C9: the admin check accepts exactly when the provided token — the form
value, falling back to the header value, falling back to `""` — equals, after
trimming, the `ADMIN_TOKEN` environment value, which defaults to `""` when the
variable is unset; consequently, with `ADMIN_TOKEN` unset or empty, requests
with missing or empty tokens pass authentication. -/
theorem C9_admin_auth (formTok hdrTok envTok : Option (List Char)) :
    (adminAuthOk formTok hdrTok envTok = true ↔
      pyStrip (pyOrStr formTok (pyOrStr hdrTok [])) = envTok.getD []) ∧
    ((envTok = none ∨ envTok = some []) →
      adminAuthOk none none envTok = true ∧
      adminAuthOk (some []) (some []) envTok = true) := by
  constructor
  · simp [adminAuthOk]
  · rintro (rfl | rfl) <;> exact ⟨by decide, by decide⟩

/-- C9 witness: with `ADMIN_TOKEN` unset, a request with no token at all and a
request with empty tokens both pass. -/
theorem C9_admin_auth_witness :
    adminAuthOk none none none = true ∧
    adminAuthOk (some []) (some []) none = true :=
  (C9_admin_auth none none none).2 (Or.inl rfl)

/-- C8: record normalization is idempotent — for every row, normalizing an
already-normalized record (trimming all four fields and upper-casing the
identifier again) yields the same record. -/
theorem C8_normalize_idem (r : RecordDoc) :
    normalizeRow (normalizeRow r) = normalizeRow r := by
  unfold normalizeRow
  simp only [RecordDoc.mk.injEq]
  refine ⟨?_, pyStrip_idem _, pyStrip_idem _, pyStrip_idem _⟩
  rw [pyStrip_pyUpper_pyStrip, pyUpper_pyUpper]

end SearchBackend
